import Mathlib

/-!
A shallow embedding of the declaration-injection semantic layer implemented in
`lib/Sema/SemaInject.cpp`.

The pure data and control flow of the C++ functions are translated into
executable Lean definitions.  External collaborators of that file (the generic
template substitution machinery `SubstDecl` / `SubstType` / `SubstInitializer`,
constant evaluation, diagnostic emission) are represented explicitly:

* the outcome of the black-box `SubstDecl` on a given declaration is carried by
  the declaration itself (field `substOutcome`); a successful clone keeps the
  declaration's structure, rewriting declaration references in its initializing
  expression through the active injection context's declaration map
  (`AddDeclSubstitution(InjectionOwner, Injectee)`);
* emitted diagnostics are returned as values (`Diag`);
* `llvm_unreachable`, failing `assert`s and null-pointer dereferences are
  modelled as `none` (or a dedicated crash constructor), since the C++ program
  has no defined result there.
-/

namespace SemaInject

/-- Kind of a clang `DeclContext`, as distinguished by the queries used in
`SemaInject.cpp` (`isFunctionOrMethod`, `isRecord`, `isNamespace`,
`isTranslationUnit`). -/
inductive DCKind where
  | functionOrMethod
  | record
  | nspace
  | translationUnit
deriving DecidableEq

/-- `DeclContext::isRecord`. -/
def DCKind.isRecord : DCKind → Bool
  | .record => true
  | _ => false

/-- `DeclContext::isFileContext`: translation unit or namespace. -/
def DCKind.isFileContext : DCKind → Bool
  | .nspace => true
  | .translationUnit => true
  | _ => false

/-- `DeclContext::isFunctionOrMethod`. -/
def DCKind.isFunctionOrMethod : DCKind → Bool
  | .functionOrMethod => true
  | _ => false

/-- `DescribeInjectionTarget` (SemaInject.cpp:746): the value fed to the second
%select of `err_invalid_injection`. -/
def DescribeInjectionTarget : DCKind → Nat
  | .functionOrMethod => 0
  | .record => 1
  | .nspace => 2
  | .translationUnit => 3

/-- The user diagnostics emitted by the modelled code paths, together with
their %select arguments. -/
inductive Diag where
  | invalidInjection (sk target : Nat)
  | injectingLocalIntoInvalidScope (intoRecord : Bool)
  | modifiesMemSpecOfNonMember (n : Nat)
  | cannotBeMadeConstexpr
  | virtualNonFunction
  | cannotMakePureVirtual (sel : Nat)
deriving DecidableEq

/-- `CheckInjectionContexts` (SemaInject.cpp:795).  `some d` models
`InvalidInjection(...)` having emitted diagnostic `d` followed by
`return false`; `none` models `return true`. -/
def CheckInjectionContexts (injection injectee : DCKind) : Option Diag :=
  if injection.isRecord && !injectee.isRecord then
    some (.invalidInjection 1 (DescribeInjectionTarget injectee))
  else if injection.isFileContext && !injectee.isFileContext then
    some (.invalidInjection 0 (DescribeInjectionTarget injectee))
  else
    none

/-- Initializing expressions, with just enough structure to observe how
substitution rewrites references to declarations (`DeclRefExpr`), which is the
work the injection context contributes to `SubstInitializer`. -/
inductive IExpr where
  | litE (n : Nat)
  | refE (d : Nat)
  | binE (a b : IExpr)
deriving DecidableEq

/-- Look up a declaration id in the injection context's decl-substitution map
(`InjectionContext::GetDeclReplacement`); identity outside the map. -/
def substLookup (m : List (Nat × Nat)) (d : Nat) : Nat :=
  match m.lookup d with
  | some r => r
  | none => d

/-- The reference rewriting performed by substitution under an active
`InjectionContext` whose decl-to-decl map is `m`. -/
def substIExpr (m : List (Nat × Nat)) : IExpr → IExpr
  | .litE n => .litE n
  | .refE d => .refE (substLookup m d)
  | .binE a b => .binE (substIExpr m a) (substIExpr m b)

/-- Whether an expression contains a reference to declaration `d`. -/
def mentions (d : Nat) : IExpr → Bool
  | .litE _ => false
  | .refE x => x == d
  | .binE a b => mentions d a || mentions d b

/-- Declaration kinds, as separated by the `isa<...>` / `dyn_cast<...>` tests of
`CopyDeclaration`.  Following the C++ class hierarchy, `dtorDK` (a destructor)
is also a method and a function, and `methodDK` is also a function; `fieldDK`
(a `FieldDecl`) is *not* a `VarDecl`. -/
inductive DK where
  | fieldDK
  | varDK
  | funcDK
  | methodDK
  | dtorDK
  | recordDK
  | otherDK
deriving DecidableEq

/-- `isa<FunctionDecl>`. -/
def DK.isaFunctionDecl : DK → Bool
  | .funcDK => true
  | .methodDK => true
  | .dtorDK => true
  | _ => false

/-- `isa<CXXMethodDecl>`. -/
def DK.isaMethodDecl : DK → Bool
  | .methodDK => true
  | .dtorDK => true
  | _ => false

/-- C++ access specifiers (`AS_none` is "no access yet assigned"). -/
inductive AccessSpec where
  | asNone
  | asPublic
  | asPrivate
  | asProtected
deriving DecidableEq

/-- The storage classes the modelled paths produce. -/
inductive StorageClass where
  | scNone
  | scStatic
deriving DecidableEq

/-- Outcome of the black-box `SubstDecl` on a given declaration: a non-null
valid clone, a null result, or a clone marked invalid. -/
inductive SubstOutcome where
  | okRes
  | failsNull
  | invalidRes
deriving DecidableEq

/-- A declaration, carrying the attributes `SemaInject.cpp` inspects or
mutates.  `isDefinedBody` models `CXXMethodDecl::isDefined`. -/
structure Dcl where
  kind : DK
  isInjCN : Bool := false
  name : String := ""
  ty : Nat := 0
  init : Option IExpr := none
  access : AccessSpec := .asNone
  hasLocalStorage : Bool := false
  sc : StorageClass := .scNone
  isDefaulted : Bool := false
  isDeleted : Bool := false
  isDefinedBody : Bool := false
  invalid : Bool := false
  substOutcome : SubstOutcome := .okRes
  virtualAW : Bool := false
  constexprFlag : Bool := false
  pureFlag : Bool := false
deriving DecidableEq

/-- The injectee: the declaration context receiving injected declarations,
viewed simultaneously as a `Decl` (its invalid flag) and as a `DeclContext`
(its kind and its member list). -/
structure Injectee where
  kind : DCKind
  declId : Nat
  invalid : Bool
  members : List Dcl
deriving DecidableEq

/-- `CheckInjectionKind` (SemaInject.cpp:808): a declaration with local
storage may only be injected into a function or method scope. -/
def CheckInjectionKind (inj : Dcl) (injectee : DCKind) : Option Diag :=
  if inj.kind == .varDK && inj.hasLocalStorage && !injectee.isFunctionOrMethod then
    some (.injectingLocalIntoInvalidScope injectee.isRecord)
  else
    none

/-- `SemaRef.SubstDecl(D, InjecteeDC, {})` (an external collaborator) consulted
through the current injection context: on success the clone keeps `D`'s
structure, with declaration references inside its initializing expression
rewritten through the context's map `m`. -/
def substMemberDecl (m : List (Nat × Nat)) (D : Dcl) : Option Dcl :=
  match D.substOutcome with
  | .failsNull => none
  | .invalidRes => some { D with invalid := true }
  | .okRes => some { D with init := D.init.map (substIExpr m) }

/-- `RewriteAsStaticMemberVariable` (SemaInject.cpp:890): rebuild a field as a
static member variable of `Owner`, reusing the field's name and type (both are
passed through substitution with an *empty* template-argument list, which
leaves the non-dependent name and type unchanged), re-substituting its in-class
initializing expression through the active injection context, and adding the
new variable to the owner's member list.  Returns the new declaration and the
owner's updated member list.  In the C++ the owner's list stores the same
object that is subsequently mutated; `CopyDeclaration` re-synchronises it via
`updMember`. -/
def RewriteAsStaticMemberVariable (D : Dcl) (m : List (Nat × Nat))
    (members : List Dcl) : Dcl × List Dcl :=
  let R : Dcl :=
    { kind := .varDK, name := D.name, ty := D.ty, sc := .scStatic,
      access := D.access, init := D.init.map (substIExpr m) }
  (R, members ++ [R])

/-- The modification traits decoded from the `mods` sub-object of the
reflection value by `CopyDeclaration` (struct fields 1..5; field 0, the
linkage, is never read).  `access`: 0 none, 1 public, 2 private, 3 protected,
4 "default".  `storage`: 0 none, 1 static, 2 automatic, 3 thread-local. -/
structure Traits where
  access : Nat
  storage : Nat
  constexprF : Bool
  virtualF : Bool
  pureF : Bool
deriving DecidableEq

/-- Result of one stage of trait application: diagnostic failure
(`return false`, carrying the declaration as mutated so far), an undefined
execution (`llvm_unreachable` or a null dereference), or continuation. -/
inductive StageRes where
  | crashSt
  | failSt (d : Diag) (r : Dcl)
  | contSt (r : Dcl)

/-- The access-trait stage of `CopyDeclaration` (SemaInject.cpp:1012-1038).
`teeKind` is the kind of `Result->getDeclContext()`, i.e. of the injectee. -/
def accessStage (teeKind : DCKind) (a : Nat) (r : Dcl) : StageRes :=
  if a != 0 then
    if !teeKind.isRecord then .failSt (.modifiesMemSpecOfNonMember 0) r
    else if a == 1 then .contSt { r with access := .asPublic }
    else if a == 2 then .contSt { r with access := .asPrivate }
    else if a == 3 then .contSt { r with access := .asProtected }
    else .crashSt
  else if teeKind.isRecord && r.access == .asNone then
    .contSt { r with access := .asPublic }
  else
    .contSt r

/-- The constexpr-trait stage (SemaInject.cpp:1040-1057).  In the C++, the
`FunctionDecl` branch dereferences the variable `Var`, which is null in that
branch (the copy-paste slip noted in spec §9); this is modelled as a crash. -/
def constexprStage (c : Bool) (r : Dcl) : StageRes :=
  if c then
    if r.kind == .varDK then .contSt { r with constexprFlag := true }
    else if r.kind == .dtorDK then .failSt .cannotBeMadeConstexpr r
    else if r.kind.isaFunctionDecl then .crashSt
    else .failSt .virtualNonFunction r
  else
    .contSt r

/-- The virtual/pure-trait stage (SemaInject.cpp:1059-1080).  Note the pure
check only runs when the virtual trait is set. -/
def virtualStage (v p : Bool) (r : Dcl) : StageRes :=
  if v then
    if !r.kind.isaMethodDecl then .failSt .virtualNonFunction r
    else
      let r2 : Dcl := { r with virtualAW := true }
      if p then
        let err : Nat :=
          if r2.isDefaulted then 2
          else if r2.isDeleted then 3
          else if r2.isDefinedBody then 1
          else 0
        if err != 0 then .failSt (.cannotMakePureVirtual (err - 1)) r2
        else .contSt { r2 with pureFlag := true }
      else .contSt r2
  else
    .contSt r

/-- Re-synchronise the owner's member list with the (possibly mutated)
declaration: in the C++, the list stores a pointer to the very object that the
trait stages mutate, so the entry added by `RewriteAsStaticMemberVariable`
always shows the current state of the declaration. -/
def updMember (ms : List Dcl) (added : Bool) (r : Dcl) : List Dcl :=
  if added then ms.dropLast ++ [r] else ms

/-- The observable outcome of `CopyDeclaration`: its boolean result, the
produced declarations (the caller's `Decls`), the injectee's invalid flag and
member list after the call, and the emitted diagnostics. -/
structure CopyRes where
  ok : Bool
  decls : List Dcl
  injecteeInvalid : Bool
  members : List Dcl
  diags : List Diag
deriving DecidableEq

/-- `CopyDeclaration` (SemaInject.cpp:936-1105).  `injCtxKind` is the kind of
`Injection->getDeclContext()`, `injOwnerId` the declaration id of its owner
(mapped to the injectee by `AddDeclSubstitution`), and `traits` the decoded
`mods` record.  `none` models undefined execution: the storage `assert`s, the
`llvm_unreachable` on an out-of-range access value, and the null `Var`
dereference of the constexpr-on-function branch. -/
def CopyDeclaration (inj : Dcl) (injCtxKind : DCKind) (injOwnerId : Nat)
    (tee : Injectee) (traits : Traits) : Option CopyRes :=
  -- Don't copy injected class names.
  if inj.kind == .recordDK && inj.isInjCN then
    some ⟨true, [], tee.invalid, tee.members, []⟩
  else
    match CheckInjectionContexts injCtxKind tee.kind with
    | some d => some ⟨false, [], tee.invalid, tee.members, [d]⟩
    | none =>
      match CheckInjectionKind inj tee.kind with
      | some d => some ⟨false, [], tee.invalid, tee.members, [d]⟩
      | none =>
        -- assert(Storage != Automatic); assert(Storage != ThreadLocal)
        if traits.storage == 2 || traits.storage == 3 then none
        else
          let m : List (Nat × Nat) := [(injOwnerId, tee.declId)]
          let fieldPath : Bool := inj.kind == .fieldDK && traits.storage == 1
          let rwres := RewriteAsStaticMemberVariable inj m tee.members
          let result0 : Option Dcl :=
            if fieldPath then some rwres.1 else substMemberDecl m inj
          let members1 : List Dcl := if fieldPath then rwres.2 else tee.members
          match result0 with
          | none => some ⟨false, [], true, members1, []⟩
          | some r1 =>
            if r1.invalid then some ⟨false, [], true, members1, []⟩
            else
              match accessStage tee.kind traits.access r1 with
              | .crashSt => none
              | .failSt d r2 =>
                  some ⟨false, [], tee.invalid, updMember members1 fieldPath r2, [d]⟩
              | .contSt r2 =>
                match constexprStage traits.constexprF r2 with
                | .crashSt => none
                | .failSt d r3 =>
                    some ⟨false, [], tee.invalid, updMember members1 fieldPath r3, [d]⟩
                | .contSt r3 =>
                  match virtualStage traits.virtualF traits.pureF r3 with
                  | .crashSt => none
                  | .failSt d r4 =>
                      some ⟨false, [], tee.invalid, updMember members1 fieldPath r4, [d]⟩
                  | .contSt r4 =>
                    -- Result->getDeclContext()->updateDecl(Result)
                    let memF : List Dcl :=
                      if fieldPath then updMember members1 true r4
                      else members1 ++ [r4]
                    -- return !Injectee->isInvalidDecl()
                    some ⟨!tee.invalid, [r4], tee.invalid, memF, []⟩

/-- The observable outcome of `InjectFragment`: its boolean result, the
accumulated declarations (`Decls`), the injectee's invalid flag after the
call, and the emitted diagnostics. -/
structure FragOut where
  ok : Bool
  decls : List Dcl
  injecteeInvalid : Bool
  diags : List Diag
deriving DecidableEq

/-- The loop body of `InjectFragment` (SemaInject.cpp:859-881), folded over
the fragment content's member declarations.  The accumulator is the pair
(injectee invalid flag, declarations produced so far). -/
def injectStep (m : List (Nat × Nat)) (acc : Bool × List Dcl) (D : Dcl) :
    Bool × List Dcl :=
  -- Don't inject injected class names.
  if D.kind == .recordDK && D.isInjCN then acc
  else
    match substMemberDecl m D with
    | none => (true, acc.2)
    | some R => if R.invalid then (true, acc.2) else (acc.1, acc.2 ++ [R])

/-- `InjectFragment` (SemaInject.cpp:822-888).  `injCtxKind` is the kind of
the fragment content's declaration context, `injOwnerId` the declaration id of
the content owner (mapped to the injectee by `AddDeclSubstitution`), and
`members` the content's member declarations in declaration order.  The
capture extraction and placeholder bindings of the C++ feed the black-box
`SubstDecl`, which here is abstracted by `substMemberDecl`. -/
def InjectFragment (injCtxKind : DCKind) (injOwnerId : Nat) (tee : Injectee)
    (members : List Dcl) : FragOut :=
  match CheckInjectionContexts injCtxKind tee.kind with
  | some d => ⟨false, [], tee.invalid, [d]⟩
  | none =>
    let m : List (Nat × Nat) := [(injOwnerId, tee.declId)]
    let r := members.foldl (injectStep m) (tee.invalid, [])
    ⟨true, r.2, r.1, []⟩

/-! ### Effect applicator (`Sema::ApplyEffects`) -/

/-- The two kinds of `EvalEffect` (injection or diagnostic request). -/
inductive EffectKind where
  | injectionE
  | diagnosticE
deriving DecidableEq

/-- One deferred evaluation effect.  `injOutcome` is the boolean outcome of
`ApplyInjection` for this effect (the whole resolve-and-inject pipeline,
abstracted); `effId` identifies the effect so that the trace of attempted
effects is observable. -/
structure EffectRec where
  kind : EffectKind
  injOutcome : Bool
  effId : Nat
deriving DecidableEq

/-- The ambient state mutated by applying effects, observed as the ordered
trace of effects that were actually attempted. -/
structure EffState where
  log : List Nat
deriving DecidableEq

/-- `ApplyInjection` (SemaInject.cpp:1108), abstracted to its boolean outcome
plus the fact that it ran. -/
def ApplyInjectionM (e : EffectRec) (s : EffState) : Bool × EffState :=
  (e.injOutcome, ⟨s.log ++ [e.effId]⟩)

/-- `ApplyDiagnostic` (SemaInject.cpp:1157): prints the reflected entity and
returns true. -/
def ApplyDiagnosticM (e : EffectRec) (s : EffState) : Bool × EffState :=
  (true, ⟨s.log ++ [e.effId]⟩)

/-- The loop body of `Sema::ApplyEffects`: `Ok &= ApplyInjection(...)` or
`Ok &= ApplyDiagnostic(...)` depending on the effect kind (note `&=` does not
short-circuit: the effect is applied regardless of `Ok`). -/
def applyOneEffect (acc : Bool × EffState) (e : EffectRec) : Bool × EffState :=
  let r :=
    match e.kind with
    | .injectionE => ApplyInjectionM e acc.2
    | .diagnosticE => ApplyDiagnosticM e acc.2
  (acc.1 && r.1, r.2)

/-- `Sema::ApplyEffects` (SemaInject.cpp:1173-1183). -/
def ApplyEffects (effects : List EffectRec) (s : EffState) : Bool × EffState :=
  effects.foldl applyOneEffect (true, s)

/-- The individual result of one effect: its `ApplyInjection` outcome for an
injection effect, `true` for a diagnostic effect. -/
def effOutcome (e : EffectRec) : Bool :=
  match e.kind with
  | .injectionE => e.injOutcome
  | .diagnosticE => true

/-! ### Fragment parse-time functions
(`CreatePlaceholders`, `ActOnStartCXXFragment`, `ActOnFinishCXXFragment`) -/

/-- The variable underlying a capture. -/
structure VarInfo where
  ident : String
  ty : Nat := 0
  declId : Nat := 0
deriving DecidableEq

/-- A captured reference: `ImplicitCastExpr(LValueToRValue, DeclRefExpr Var)`
as built by `ReferenceCaptures`. -/
structure CaptureE where
  var : VarInfo
deriving DecidableEq

/-- `GetVariableFromCapture` (SemaInject.cpp:143): unwrap the cast and the
reference. -/
def GetVariableFromCapture (e : CaptureE) : VarInfo := e.var

/-- A placeholder variable declaration as built by `CreatePlaceholder`
(SemaInject.cpp:155): `constexpr auto v = <marker value>;` — constant,
implicit, dependent-typed, static, referenced, with a marker initializing
value. -/
structure PlaceholderD where
  ident : String
  tyDependent : Bool
  constexprFlag : Bool
  implicitFlag : Bool
  scStaticFlag : Bool
  markerInit : Bool
  referenced : Bool
deriving DecidableEq

/-- Build the placeholder for one captured variable. -/
def mkPlaceholder (v : VarInfo) : PlaceholderD :=
  ⟨v.ident, true, true, true, true, true, true⟩

/-- A `CXXFragmentDecl`: its declaration context (holding the placeholders)
and, once parsing finishes, its content. -/
structure FragD where
  decls : List PlaceholderD
  content : Option Nat := none
deriving DecidableEq

/-- `CreatePlaceholder` (SemaInject.cpp:155): create one placeholder from the
variable of a captured reference and add it to the fragment's context. -/
def CreatePlaceholder (fr : FragD) (e : CaptureE) : FragD :=
  { fr with decls := fr.decls ++ [mkPlaceholder (GetVariableFromCapture e)] }

/-- `CreatePlaceholders` (SemaInject.cpp:173): one placeholder per capture, in
capture order. -/
def CreatePlaceholders (fr : FragD) (captures : List CaptureE) : FragD :=
  captures.foldl CreatePlaceholder fr

/-- The slice of `Sema` state these entry points touch: the stack of pushed
declaration contexts. -/
structure SemaState where
  ctxStack : List Nat := []
deriving DecidableEq

/-- `PushDeclContext`. -/
def PushDeclContext (st : SemaState) (dc : Nat) : SemaState :=
  { st with ctxStack := dc :: st.ctxStack }

/-- `PopDeclContext`. -/
def PopDeclContext (st : SemaState) : SemaState :=
  { st with ctxStack := st.ctxStack.tail }

/-- `Sema::ActOnStartCXXFragment` (SemaInject.cpp:192): create the fragment
declaration, create the placeholders for the captures, and push the fragment
context when the scope is non-null. -/
def ActOnStartCXXFragment (sNonNull : Bool) (captures : List CaptureE)
    (st : SemaState) : FragD × SemaState :=
  let fr := CreatePlaceholders { decls := [] } captures
  (fr, if sNonNull then PushDeclContext st 0 else st)

/-- `Sema::ActOnFinishCXXFragment` (SemaInject.cpp:204): set the content when
the fragment is non-null (there is no fragment to modify otherwise), and pop
the declaration context whenever the scope is non-null. -/
def ActOnFinishCXXFragment (sNonNull : Bool) (frag : Option FragD)
    (content : Option Nat) (st : SemaState) : Option FragD × SemaState :=
  let fd := frag.map (fun f => { f with content := content })
  (fd, if sNonNull then PopDeclContext st else st)

/-! ### Capture discovery (`FindCapturesInScope`, `FindCaptures`) -/

/-- A declaration sitting in a lexical scope, carrying the attributes the
capture search inspects (`dyn_cast<VarDecl>`, `isLocalVarDeclOrParm`,
`hasInit`). -/
structure ScopeDecl where
  isVarDecl : Bool
  isLocalOrParm : Bool
  hasInitE : Bool
  vid : Nat
deriving DecidableEq

/-- A lexical scope: its entity (a declaration context, possibly null) and its
declarations in declaration order. -/
structure ScopeRec where
  entity : Option Nat
  decls : List ScopeDecl
deriving DecidableEq

/-- The capture condition of `FindCapturesInScope` (SemaInject.cpp:103): a
`VarDecl` with local/parameter storage and an initializing expression. -/
def capturePred (d : ScopeDecl) : Bool :=
  d.isVarDecl && d.isLocalOrParm && d.hasInitE

/-- `FindCapturesInScope` (SemaInject.cpp:103): append every declaration of
the scope satisfying `capturePred`, in declaration order. -/
def FindCapturesInScope (s : ScopeRec) (vars : List ScopeDecl) : List ScopeDecl :=
  vars ++ s.decls.filter capturePred

/-- `FindCaptures` (SemaInject.cpp:117): walk the scope chain (innermost
first), collecting captures, while the scope exists and its entity differs
from `fn`; when the walk stopped on the scope whose entity is `fn`, collect
that scope too. -/
def FindCaptures (fn : Option Nat) : List ScopeRec → List ScopeDecl → List ScopeDecl
  | [], vars => vars
  | s :: rest, vars =>
    if s.entity == fn then FindCapturesInScope s vars
    else FindCaptures fn rest (FindCapturesInScope s vars)

/-- Modelled from the spec: the scope chain "from the innermost scope up to
(but not past) the enclosing function" — every scope strictly before the one
whose entity is `fn`, plus that scope itself when present. -/
def scopesUpTo (fn : Option Nat) : List ScopeRec → List ScopeRec
  | [] => []
  | s :: rest => if s.entity == fn then [s] else s :: scopesUpTo fn rest

/-- Modelled from the spec: the captures are exactly the local variables with
block/parameter storage and an initializing expression, from the scopes up to
the enclosing function, in discovery order. -/
def specCaptureList (fn : Option Nat) (chain : List ScopeRec) : List ScopeDecl :=
  ((scopesUpTo fn chain).map (fun s => s.decls.filter capturePred)).flatten

/-! ### Reflection recognizers
(`ReferencedReflectionClass`, `ReferencesFunction`, `ReferencesParameter`) -/

/-- AST nodes for the recognizer inputs: a (canonical) type is either a
non-record type or a record; a record carries its identifier (null for an
unnamed record), whether it is a `ClassTemplateSpecializationDecl`, its owning
declaration context, and its template arguments.  Contexts are the designated
`meta` namespace, an inline namespace inside some context, another namespace,
or an enclosing record.  A template argument is a type or a non-type
argument. -/
inductive MNode where
  | nonRecordTy
  | recordTy (ident : Option String) (isSpec : Bool) (ctx : MNode) (args : List MNode)
  | nonTypeArg
  | metaNsCtx
  | inlineNsCtx (parent : MNode)
  | otherNsCtx

/-- `DeclContext::getParent` after `isInlineNamespace`: strip one inline
namespace layer. -/
def stripInline (c : MNode) : MNode :=
  match c with
  | .inlineNsCtx p => p
  | c => c

/-- `Owner->Equals(RequireCppxMetaNamespace(...))`. -/
def isMetaNs (c : MNode) : Bool :=
  match c with
  | .metaNsCtx => true
  | _ => false

/-- `ReferencedReflectionClass` (SemaInject.cpp:574): the expression's type
must be a record, a class template specialization, and owned (after stripping
one inline-namespace layer) by the designated meta namespace. -/
def ReferencedReflectionClass (t : MNode) : Option MNode :=
  match t with
  | .recordTy ident isSpec ctx args =>
    if isSpec then
      if isMetaNs (stripInline ctx) then some (.recordTy ident isSpec ctx args)
      else none
    else none
  | _ => none

/-- Result of a recognizer: no match (`return false`), a match carrying the
record whose tag type becomes `RefTy` (`return true`), or undefined execution
(dereference of a null `IdentifierInfo*`, i.e. an unnamed record where the
code calls `getIdentifier()->getName()`). -/
inductive RecogRes where
  | noMatch
  | matched (refTy : MNode)
  | crashUB

/-- `ReferencesFunction` (SemaInject.cpp:597): matches `function<X>` and
`reflected_tuple<T>` where `T` is `function<X>::parm_info` or
`method<X>::parm_info`. -/
def ReferencesFunction (t : MNode) : RecogRes :=
  match ReferencedReflectionClass t with
  | none => .noMatch
  | some spec =>
    match spec with
    | .recordTy ident _ _ args =>
      match ident with
      | none => .crashUB
      | some nm =>
        if nm == "function" then .matched spec
        else if nm == "reflected_tuple" then
          match args.head? with
          | none => .crashUB
          | some first =>
            match first with
            | .recordTy cIdent _ cCtx _ =>
              match cIdent with
              | none => .crashUB
              | some cn =>
                if cn != "parm_info" then .noMatch
                else
                  match cCtx with
                  | .recordTy pIdent pSpec pCtx pArgs =>
                    match pIdent with
                    | none => .crashUB
                    | some pn =>
                      if pn == "function" || pn == "method" then
                        .matched (.recordTy pIdent pSpec pCtx pArgs)
                      else .noMatch
                  | _ => .noMatch
            | _ => .noMatch
        else .noMatch
    | _ => .noMatch

/-- `ReferencesParameter` (SemaInject.cpp:634): matches `parameter<X>`. -/
def ReferencesParameter (t : MNode) : RecogRes :=
  match ReferencedReflectionClass t with
  | none => .noMatch
  | some spec =>
    match spec with
    | .recordTy ident _ _ _ =>
      match ident with
      | none => .crashUB
      | some nm => if nm == "parameter" then .matched spec else .noMatch
    | _ => .noMatch

/-! ## Helper lemmas -/

theorem substIExpr_of_not_mentions (d x : Nat) :
    ∀ e : IExpr, mentions d e = false → substIExpr [(d, x)] e = e := by
  intro e
  induction e with
  | litE n => intro h; rfl
  | refE y =>
    intro h
    unfold mentions at h
    simp [substIExpr, substLookup, List.lookup, h]
  | binE a b iha ihb =>
    intro h
    unfold mentions at h
    rw [Bool.or_eq_false_iff] at h
    simp [substIExpr, iha h.1, ihb h.2]

theorem applyEffects_foldl (es : List EffectRec) :
    ∀ (b : Bool) (s : EffState),
      es.foldl applyOneEffect (b, s)
        = (b && es.all effOutcome, ⟨s.log ++ es.map (fun e => e.effId)⟩) := by
  induction es with
  | nil => intro b s; simp
  | cons e es ih =>
    intro b s
    have hstep : applyOneEffect (b, s) e = (b && effOutcome e, ⟨s.log ++ [e.effId]⟩) := by
      cases e with
      | mk k o i =>
        cases k <;>
          simp [applyOneEffect, ApplyInjectionM, ApplyDiagnosticM, effOutcome]
    rw [List.foldl_cons, hstep, ih]
    simp [Bool.and_assoc, List.all_cons]

theorem createPlaceholders_decls (captures : List CaptureE) :
    ∀ fr : FragD,
      (CreatePlaceholders fr captures).decls
        = fr.decls ++ captures.map (fun c => mkPlaceholder (GetVariableFromCapture c)) := by
  induction captures with
  | nil => intro fr; simp [CreatePlaceholders]
  | cons c cs ih =>
    intro fr
    unfold CreatePlaceholders at ih ⊢
    rw [List.foldl_cons, ih]
    simp [CreatePlaceholder]

theorem foldl_injectStep_filter (m : List (Nat × Nat)) :
    ∀ (l : List Dcl) (acc : Bool × List Dcl),
      (l.filter (fun d => !(d.kind == .recordDK && d.isInjCN))).foldl (injectStep m) acc
        = l.foldl (injectStep m) acc := by
  intro l
  induction l with
  | nil => intro acc; rfl
  | cons d l ih =>
    intro acc
    rw [List.filter_cons]
    cases h : d.kind == .recordDK && d.isInjCN
    · rw [if_pos (by simp [h])]
      rw [List.foldl_cons, List.foldl_cons, ih]
    · rw [if_neg (by simp [h])]
      rw [ih, List.foldl_cons]
      have hskip : injectStep m acc d = acc := by simp [injectStep, h]
      rw [hskip]

theorem accessStage_record_cont (a : Nat) (r : Dcl)
    (h : a = 0 ∨ a = 1 ∨ a = 2 ∨ a = 3) :
    ∃ s : AccessSpec, accessStage .record a r = .contSt { r with access := s } := by
  rcases h with h | h | h | h <;> subst h
  · cases hacc : r.access == AccessSpec.asNone
    · exact ⟨r.access, by simp [accessStage, DCKind.isRecord, hacc]⟩
    · exact ⟨.asPublic, by simp [accessStage, DCKind.isRecord, hacc]⟩
  · exact ⟨.asPublic, by simp [accessStage, DCKind.isRecord]⟩
  · exact ⟨.asPrivate, by simp [accessStage, DCKind.isRecord]⟩
  · exact ⟨.asProtected, by simp [accessStage, DCKind.isRecord]⟩

/-! ## Claim theorems -/

/-- Claim C1 (behavior of the code at the failing input): injecting a
fragment when the substitution of the second of three content members fails
(`SubstDecl` returns null) marks the injectee invalid and skips that member,
still processes the remaining member — and nevertheless *returns success*
(`true`), since `InjectFragment` returns `true` unconditionally after the
member loop, contradicting the documented contract that the overall operation
reports failure. -/
theorem injectFragment_member_failure_returns_true :
    InjectFragment .record 0 ⟨.record, 1, false, []⟩
      [{ kind := .otherDK, name := "a" },
       { kind := .otherDK, name := "b", substOutcome := .failsNull },
       { kind := .otherDK, name := "c" }]
      = ⟨true,
         [{ kind := .otherDK, name := "a" }, { kind := .otherDK, name := "c" }],
         true, []⟩ := by
  rfl

/-- Claim C2: `ApplyEffects` applies each effect in sequence order (each
attempted effect appends its id to the trace, so all of them run even when an
earlier one failed), and its boolean result is the conjunction of all the
individual effect results. -/
theorem applyEffects_and_of_results (effects : List EffectRec) (s : EffState) :
    ApplyEffects effects s
      = (effects.all effOutcome, ⟨s.log ++ effects.map (fun e => e.effId)⟩) := by
  unfold ApplyEffects
  rw [applyEffects_foldl]
  simp

/-- Claim C3: when the fragment's declaration-context kind is incompatible
with the injectee's kind (record content into a non-record injectee, or
file-scope content into a non-file-scope injectee), `InjectFragment` emits
exactly the context-kind-mismatch diagnostic (`err_invalid_injection`),
returns failure, produces zero new declarations, and leaves the injectee's
invalid flag untouched. -/
theorem injectFragment_context_mismatch (injCtxKind : DCKind) (injOwnerId : Nat)
    (tee : Injectee) (members : List Dcl)
    (h : (injCtxKind.isRecord = true ∧ tee.kind.isRecord = false)
       ∨ (injCtxKind.isFileContext = true ∧ tee.kind.isFileContext = false)) :
    InjectFragment injCtxKind injOwnerId tee members
      = ⟨false, [], tee.invalid,
         [Diag.invalidInjection
            (if injCtxKind.isRecord && !tee.kind.isRecord then 1 else 0)
            (DescribeInjectionTarget tee.kind)]⟩ := by
  obtain ⟨tk, tid, tinv, tms⟩ := tee
  rcases h with ⟨h1, h2⟩ | ⟨h1, h2⟩ <;>
    cases injCtxKind <;> cases tk <;>
      simp_all [InjectFragment, CheckInjectionContexts, DCKind.isRecord,
        DCKind.isFileContext, DescribeInjectionTarget]

theorem injectFragment_context_mismatch_witness :
    InjectFragment .record 0 ⟨.nspace, 0, false, []⟩ [{ kind := .otherDK }]
      = ⟨false, [], false, [Diag.invalidInjection 1 2]⟩ := by
  have h := injectFragment_context_mismatch .record 0 ⟨.nspace, 0, false, []⟩
    [{ kind := .otherDK }] (Or.inl ⟨rfl, rfl⟩)
  simpa using h

/-- Claim C4: starting a fragment with `N` captured references adds exactly
`N` placeholder declarations to the fragment's context, and the `i`-th
placeholder is built from the variable referenced by the `i`-th capture (same
identifier, positionally). -/
theorem fragment_placeholder_correspondence (s : Bool) (captures : List CaptureE)
    (st : SemaState) :
    ((ActOnStartCXXFragment s captures st).1.decls.length = captures.length)
  ∧ ∀ i : Nat,
      ((ActOnStartCXXFragment s captures st).1.decls[i]?).map (fun p => p.ident)
        = (captures[i]?).map (fun c => (GetVariableFromCapture c).ident) := by
  have hd : (ActOnStartCXXFragment s captures st).1.decls
      = captures.map (fun c => mkPlaceholder (GetVariableFromCapture c)) := by
    unfold ActOnStartCXXFragment
    simp [createPlaceholders_decls]
  constructor
  · rw [hd]; simp
  · intro i
    rw [hd, List.getElem?_map]
    cases captures[i]? <;> simp [mkPlaceholder, GetVariableFromCapture]

/-- Claim C7: injected-class-name declarations are never copied or injected:
`CopyDeclaration` on an injected-class-name returns success with zero new
declarations and no change to the injectee, and the member loop of
`InjectFragment` behaves identically whether or not injected-class-name
members are present in the fragment content. -/
theorem injected_class_name_noop (inj : Dcl)
    (h1 : inj.kind = .recordDK) (h2 : inj.isInjCN = true)
    (injCtxKind : DCKind) (injOwnerId : Nat) (tee : Injectee) (traits : Traits)
    (fCtxKind : DCKind) (fOwnerId : Nat) (fTee : Injectee) (members : List Dcl) :
    CopyDeclaration inj injCtxKind injOwnerId tee traits
      = some ⟨true, [], tee.invalid, tee.members, []⟩
  ∧ InjectFragment fCtxKind fOwnerId fTee
      (members.filter (fun d => !(d.kind == .recordDK && d.isInjCN)))
      = InjectFragment fCtxKind fOwnerId fTee members := by
  constructor
  · unfold CopyDeclaration
    rw [h1, h2]
    simp
  · unfold InjectFragment
    cases hc : CheckInjectionContexts fCtxKind fTee.kind with
    | none =>
      simp only [hc]
      rw [foldl_injectStep_filter]
    | some d => simp only [hc]

theorem injected_class_name_noop_witness :
    CopyDeclaration { kind := .recordDK, isInjCN := true } .record 0
        ⟨.record, 1, false, []⟩ ⟨0, 0, false, false, false⟩
      = some ⟨true, [], false, [], []⟩
  ∧ InjectFragment .record 0 ⟨.record, 1, false, []⟩
      ([{ kind := .recordDK, isInjCN := true }, { kind := .otherDK }].filter
        (fun d => !(d.kind == .recordDK && d.isInjCN)))
      = InjectFragment .record 0 ⟨.record, 1, false, []⟩
          [{ kind := .recordDK, isInjCN := true }, { kind := .otherDK }] := by
  exact injected_class_name_noop { kind := .recordDK, isInjCN := true } rfl rfl
    .record 0 ⟨.record, 1, false, []⟩ ⟨0, 0, false, false, false⟩
    .record 0 ⟨.record, 1, false, []⟩
    [{ kind := .recordDK, isInjCN := true }, { kind := .otherDK }]

/-- Claim C8 (behavior of the code at the failing input): the recognizer
`ReferencesFunction`, applied to a `meta::reflected_tuple<A>` specialization
whose type argument `A` is an *unnamed* record (wrong nesting — not
`parm_info` inside `function`/`method`), dereferences the record's null
`IdentifierInfo*` (`Class->getIdentifier()->getName()`) instead of returning
"no match": the recognizers are not total. -/
theorem referencesFunction_crashes_on_unnamed_record :
    ReferencesFunction
      (.recordTy (some "reflected_tuple") true .metaNsCtx
        [.recordTy none false .otherNsCtx []])
      = .crashUB := by
  rfl

/-- Claim C9: `FindCaptures` collects exactly the local variables with
block/parameter storage and an initializing expression, from the lexical scope
chain up to (and stopping at) the scope whose entity is the enclosing
function, preserving discovery order — `specCaptureList` is the direct
transcription of the spec's contract. -/
theorem findCaptures_collects_initialized_locals (fn : Option Nat)
    (chain : List ScopeRec) :
    ∀ vars : List ScopeDecl,
      FindCaptures fn chain vars = vars ++ specCaptureList fn chain := by
  induction chain with
  | nil => intro vars; simp [FindCaptures, specCaptureList, scopesUpTo]
  | cons s rest ih =>
    intro vars
    cases h : s.entity == fn
    · simp [FindCaptures, specCaptureList, scopesUpTo, h, FindCapturesInScope,
        ih, List.append_assoc]
    · simp [FindCaptures, specCaptureList, scopesUpTo, h, FindCapturesInScope]

/-- Claim C10: finishing a fragment with a non-null scope always pops the
declaration context pushed at fragment start — also when the fragment argument
is null after a parse failure — and in the null case it returns null without
setting any fragment content. -/
theorem finish_fragment_cleanup (frag : Option FragD) (content : Option Nat)
    (st : SemaState) (captures : List CaptureE) :
    ((ActOnFinishCXXFragment true frag content st).2.ctxStack = st.ctxStack.tail)
  ∧ ((ActOnFinishCXXFragment true none content st).1 = none)
  ∧ (((ActOnFinishCXXFragment true none content
        (ActOnStartCXXFragment true captures st).2).2).ctxStack = st.ctxStack) := by
  refine ⟨?_, ?_, ?_⟩ <;>
    simp [ActOnFinishCXXFragment, ActOnStartCXXFragment, PushDeclContext,
      PopDeclContext]

/-- Claim C5: copying a non-static field with the modification trait
`storage = static` (and nothing else requested) into a class injectee yields a
new *static member variable* — a variable declaration, not a field — appended
to the injectee, reusing the source field's name, type, and in-class
initializing expression (exactly, whenever that expression does not reference
the substituted owner). -/
theorem copy_field_to_static_member (inj : Dcl) (injOwnerId : Nat)
    (tee : Injectee) (e : IExpr)
    (h1 : inj.kind = .fieldDK) (h2 : tee.kind = .record) (h3 : tee.invalid = false)
    (h4 : inj.init = some e) (h5 : mentions injOwnerId e = false) :
    ∃ r : Dcl,
      CopyDeclaration inj .record injOwnerId tee ⟨0, 1, false, false, false⟩
        = some ⟨true, [r], false, tee.members ++ [r], []⟩
      ∧ r.kind = .varDK ∧ r.sc = .scStatic ∧ r.name = inj.name
      ∧ r.ty = inj.ty ∧ r.init = some e := by
  obtain ⟨tk, tid, tinv, tms⟩ := tee
  have h2a : tk = DCKind.record := h2
  have h3a : tinv = false := h3
  subst h2a
  subst h3a
  have hsub : substIExpr [(injOwnerId, tid)] e = e :=
    substIExpr_of_not_mentions _ _ e h5
  have hfield : (inj.kind == DK.fieldDK) = true := by rw [h1]; rfl
  have hrec : (inj.kind == DK.recordDK) = false := by rw [h1]; rfl
  have hvar : (inj.kind == DK.varDK) = false := by rw [h1]; rfl
  cases hacc : inj.access == AccessSpec.asNone
  · refine ⟨{ kind := .varDK, name := inj.name, ty := inj.ty, sc := .scStatic,
              access := inj.access, init := some e },
      ?_, rfl, rfl, rfl, rfl, rfl⟩
    simp [CopyDeclaration, CheckInjectionContexts, CheckInjectionKind,
      RewriteAsStaticMemberVariable, accessStage, constexprStage, virtualStage,
      updMember, DCKind.isRecord, DCKind.isFileContext, DCKind.isFunctionOrMethod,
      hrec, hvar, hfield, h4, hsub, hacc, List.dropLast_concat]
  · refine ⟨{ kind := .varDK, name := inj.name, ty := inj.ty, sc := .scStatic,
              access := .asPublic, init := some e },
      ?_, rfl, rfl, rfl, rfl, rfl⟩
    simp [CopyDeclaration, CheckInjectionContexts, CheckInjectionKind,
      RewriteAsStaticMemberVariable, accessStage, constexprStage, virtualStage,
      updMember, DCKind.isRecord, DCKind.isFileContext, DCKind.isFunctionOrMethod,
      hrec, hvar, hfield, h4, hsub, hacc, List.dropLast_concat]

theorem copy_field_to_static_member_witness :
    ∃ r : Dcl,
      CopyDeclaration
          { kind := .fieldDK, name := "x", ty := 3,
            init := some (.binE (.refE 7) (.litE 5)) }
          .record 9 ⟨.record, 1, false, []⟩ ⟨0, 1, false, false, false⟩
        = some ⟨true, [r], false, [r], []⟩
      ∧ r.kind = .varDK ∧ r.sc = .scStatic
      ∧ r.name = "x" ∧ r.ty = 3 ∧ r.init = some (.binE (.refE 7) (.litE 5)) := by
  exact copy_field_to_static_member
    { kind := .fieldDK, name := "x", ty := 3,
      init := some (.binE (.refE 7) (.litE 5)) }
    9 ⟨.record, 1, false, []⟩ (.binE (.refE 7) (.litE 5))
    rfl rfl rfl rfl (by decide)

/-- Claim C6, counterexample to the claim as stated: traits requesting `pure`
*without* `virtual` on a copied method that is already defaulted do not make
the operation fail — the pure request is silently ignored, no diagnostic is
emitted, and the clone is appended to the injectee's member list, because the
pure-conflict check of `CopyDeclaration` only runs inside the
`if (Virtual)` branch. -/
theorem copy_pure_without_virtual_is_ignored :
    CopyDeclaration { kind := .methodDK, name := "f", isDefaulted := true }
        .record 0 ⟨.record, 1, false, []⟩ ⟨0, 0, false, false, true⟩
      = some ⟨true,
          [{ kind := .methodDK, name := "f", isDefaulted := true,
             access := .asPublic }],
          false,
          [{ kind := .methodDK, name := "f", isDefaulted := true,
             access := .asPublic }],
          []⟩ := by
  rfl

/-- Claim C6 (amended): when the traits request `virtual` together with `pure`
(and no constexpr change, with an in-range access and storage request) on a
copied method that is already defaulted, deleted, or defined,
`CopyDeclaration` fails with the cannot-make-pure-virtual diagnostic — a
distinct selector per conflict kind (defaulted 1, deleted 2, defined 0) — and
does not mutate the injectee's member list. -/
theorem copy_virtual_pure_conflict (inj : Dcl) (injOwnerId : Nat)
    (tee : Injectee) (traits : Traits)
    (h1 : inj.kind = .methodDK)
    (h2 : inj.isDefaulted = true ∨ inj.isDeleted = true ∨ inj.isDefinedBody = true)
    (h3 : inj.substOutcome = .okRes) (h4 : inj.invalid = false)
    (h5 : traits.virtualF = true) (h6 : traits.pureF = true)
    (h7 : traits.constexprF = false)
    (h8 : traits.storage = 0 ∨ traits.storage = 1)
    (h9 : traits.access = 0 ∨ traits.access = 1 ∨ traits.access = 2 ∨ traits.access = 3)
    (h10 : tee.kind = .record) :
    CopyDeclaration inj .record injOwnerId tee traits
      = some ⟨false, [], tee.invalid, tee.members,
              [Diag.cannotMakePureVirtual
                 (if inj.isDefaulted then 1 else if inj.isDeleted then 2 else 0)]⟩ := by
  obtain ⟨a, s, cF, vF, pF⟩ := traits
  obtain ⟨tk, tid, tinv, tms⟩ := tee
  have h5a : vF = true := h5
  have h6a : pF = true := h6
  have h7a : cF = false := h7
  have h10a : tk = DCKind.record := h10
  subst h5a; subst h6a; subst h7a; subst h10a
  have h8a : s = 0 ∨ s = 1 := h8
  have h9a : a = 0 ∨ a = 1 ∨ a = 2 ∨ a = 3 := h9
  have hstor : (s == 2 || s == 3) = false := by
    rcases h8a with h | h <;> subst h <;> rfl
  have hfield : (inj.kind == DK.fieldDK) = false := by rw [h1]; rfl
  have hrec : (inj.kind == DK.recordDK) = false := by rw [h1]; rfl
  have hvar : (inj.kind == DK.varDK) = false := by rw [h1]; rfl
  obtain ⟨s2, hacc2⟩ := accessStage_record_cont a
    { inj with init := inj.init.map (substIExpr [(injOwnerId, tid)]) } h9a
  have hmeth : DK.isaMethodDecl inj.kind = true := by rw [h1]; rfl
  have herr :
      virtualStage true true
        { inj with
            init := inj.init.map (substIExpr [(injOwnerId, tid)]), access := s2 }
        = .failSt
            (.cannotMakePureVirtual
              (if inj.isDefaulted then 1 else if inj.isDeleted then 2 else 0))
            { inj with
                init := inj.init.map (substIExpr [(injOwnerId, tid)]),
                access := s2, virtualAW := true } := by
    unfold virtualStage
    cases hDef : inj.isDefaulted <;> cases hDel : inj.isDeleted <;>
      cases hBody : inj.isDefinedBody <;>
        simp_all [DK.isaMethodDecl, hmeth, h1]
  simp only [h3, h4] at hacc2 herr
  simp [CopyDeclaration, CheckInjectionContexts, CheckInjectionKind,
    substMemberDecl, constexprStage, updMember,
    DCKind.isRecord, DCKind.isFileContext, DCKind.isFunctionOrMethod,
    hrec, hvar, hfield, hstor, h3, h4, hacc2, herr]

theorem copy_virtual_pure_conflict_witness :
    CopyDeclaration { kind := .methodDK, name := "g", isDefaulted := true }
        .record 4 ⟨.record, 9, false, []⟩ ⟨2, 0, false, true, true⟩
      = some ⟨false, [], false, [], [Diag.cannotMakePureVirtual 1]⟩ := by
  have h := copy_virtual_pure_conflict
    { kind := .methodDK, name := "g", isDefaulted := true } 4
    ⟨.record, 9, false, []⟩ ⟨2, 0, false, true, true⟩
    rfl (Or.inl rfl) rfl rfl rfl rfl rfl (Or.inl rfl)
    (Or.inr (Or.inr (Or.inl rfl))) rfl
  simpa using h

end SemaInject
